import Mathlib

/-!
Verification of the sepHealthBackend push-notification server.

The definitions below are a shallow embedding of the current server
(`server.js`, the variant with Socket.io support and the `convertToCST`
helper that appends a fixed `-06:00` offset) together with the Mongoose
schemas in `models/Message.js` and `models/Device.js`.  Stateful routes
are modelled as explicit state-passing functions over a `ServerState`
record; timestamps are epoch milliseconds (`Int`), matching JavaScript
`Date` values.  The calendar arithmetic models dates from 1970 onward,
which covers every instant the server manipulates.
-/

namespace SepHealth

/-- Calendar components of a datetime, as produced by the server's
`YYYY-MM-DDTHH:mm:ss` regular expression. -/
structure DateTimeParts where
  year : Nat
  month : Nat
  day : Nat
  hour : Nat
  minute : Nat
  second : Nat
  deriving DecidableEq, Repr

def isLeap (y : Nat) : Bool :=
  (y % 4 == 0 && y % 100 != 0) || y % 400 == 0

def daysInMonth (y m : Nat) : Nat :=
  match m with
  | 1 => 31
  | 2 => if isLeap y then 29 else 28
  | 3 => 31
  | 4 => 30
  | 5 => 31
  | 6 => 30
  | 7 => 31
  | 8 => 31
  | 9 => 30
  | 10 => 31
  | 11 => 30
  | 12 => 31
  | _ => 0

/-- Days from 1970-01-01 to `y`-01-01 (valid for `y ≥ 1970`). -/
def daysBeforeYear (y : Nat) : Nat :=
  (List.range (y - 1970)).foldl
    (fun acc i => acc + (if isLeap (1970 + i) then 366 else 365)) 0

/-- Days from `y`-01-01 to `y`-`m`-01. -/
def daysBeforeMonth (y m : Nat) : Nat :=
  (List.range (m - 1)).foldl (fun acc i => acc + daysInMonth y (i + 1)) 0

/-- Days since the Unix epoch of the civil date `y`-`m`-`d`. -/
def daysOfDate (y m d : Nat) : Nat :=
  daysBeforeYear y + daysBeforeMonth y m + (d - 1)

def daysSinceEpoch (p : DateTimeParts) : Nat :=
  daysOfDate p.year p.month p.day

/-- Epoch milliseconds of the components read as a UTC wall clock. -/
def naiveEpochMs (p : DateTimeParts) : Nat :=
  daysSinceEpoch p * 86400000 + p.hour * 3600000 + p.minute * 60000 + p.second * 1000

/-- Range validity of parsed components: exactly the ISO strings that
JavaScript `new Date(...)` accepts (month 1-12, day within the month,
hour ≤ 23, minute and second ≤ 59). -/
def validParts (p : DateTimeParts) : Bool :=
  1 ≤ p.month && p.month ≤ 12 && 1 ≤ p.day && p.day ≤ daysInMonth p.year p.month
    && p.hour ≤ 23 && p.minute ≤ 59 && p.second ≤ 59

/-- Day of week of an epoch day count; 0 is Sunday (1970-01-01 was a Thursday). -/
def dowOfDays (d : Nat) : Nat := (d + 4) % 7

/-- Day of month (1-based) of the first Sunday of month `m` in year `y`. -/
def firstSundayOfMonth (y m : Nat) : Nat :=
  1 + (7 - dowOfDays (daysOfDate y m 1)) % 7

/-- US daylight-saving start for year `y` as a UTC instant: second Sunday
of March, 02:00 Central Standard Time = 08:00 UTC. -/
def dstStartMs (y : Nat) : Nat :=
  daysOfDate y 3 (firstSundayOfMonth y 3 + 7) * 86400000 + 8 * 3600000

/-- US daylight-saving end for year `y` as a UTC instant: first Sunday of
November, 02:00 Central Daylight Time = 07:00 UTC. -/
def dstEndMs (y : Nat) : Nat :=
  daysOfDate y 11 (firstSundayOfMonth y 11) * 86400000 + 7 * 3600000

/-- Splits an epoch day count into (year, day-of-year); fuel-driven scan
starting at 1970. -/
def splitYearAux : Nat → Nat → Nat → Nat × Nat
  | 0, y, d => (y, d)
  | fuel + 1, y, d =>
    let len := if isLeap y then 366 else 365
    if d < len then (y, d) else splitYearAux fuel (y + 1) (d - len)

def splitYear (d : Nat) : Nat × Nat := splitYearAux (d + 1) 1970 d

/-- Splits a day-of-year into (month, day-of-month minus one). -/
def splitMonthAux : Nat → Nat → Nat → Nat → Nat × Nat
  | 0, _, m, d => (m, d)
  | fuel + 1, y, m, d =>
    let len := daysInMonth y m
    if d < len then (m, d) else splitMonthAux fuel y (m + 1) (d - len)

/-- Calendar components of an epoch-millisecond instant (UTC). -/
def partsOfEpochMs (t : Nat) : DateTimeParts :=
  let days := t / 86400000
  let rem := t % 86400000
  let yd := splitYear days
  let md := splitMonthAux 12 yd.1 1 yd.2
  { year := yd.1, month := md.1, day := md.2 + 1,
    hour := rem / 3600000, minute := rem % 3600000 / 60000,
    second := rem % 60000 / 1000 }

/-- Whether a UTC instant falls inside the US daylight-saving window of
its year (the tz rule backing `timeZone: America/Chicago`). -/
def chicagoIsDSTInstant (t : Nat) : Bool :=
  let y := (splitYear (t / 86400000)).1
  dstStartMs y ≤ t && t < dstEndMs y

def chicagoOffsetMsAtInstant (t : Nat) : Nat :=
  if chicagoIsDSTInstant t then 5 * 3600000 else 6 * 3600000

/-- Embedding of `toLocaleString(en-US, timeZone America/Chicago)`: the
America/Chicago civil components of an instant. -/
def chicagoPartsOfInstant (t : Int) : DateTimeParts :=
  partsOfEpochMs ((t - (chicagoOffsetMsAtInstant t.toNat : Nat)).toNat)

/-- Whether an America/Chicago wall-clock datetime falls inside daylight
saving time (second Sunday of March 02:00 to first Sunday of November
02:00, US rules). -/
def chicagoWallIsDST (p : DateTimeParts) : Bool :=
  let startDay := firstSundayOfMonth p.year 3 + 7
  let endDay := firstSundayOfMonth p.year 11
  let afterStart : Bool :=
    if 3 < p.month then true
    else if p.month = 3 then
      if startDay < p.day then true
      else if p.day = startDay then decide (2 ≤ p.hour)
      else false
    else false
  let beforeEnd : Bool :=
    if p.month < 11 then true
    else if p.month = 11 then
      if p.day < endDay then true
      else if p.day = endDay then decide (p.hour < 2)
      else false
    else false
  afterStart && beforeEnd

/-- Modelled from the spec: "if it carries no offset, treat it as already
expressed in the local civil timezone", reading the local civil timezone
as the claim's America/Chicago (which observes US daylight-saving time).
Used only to compare the code's interpretation against the spec's words. -/
def specChicagoInterpretMs (p : DateTimeParts) : Int :=
  (naiveEpochMs p : Int) + (if chicagoWallIsDST p then 5 else 6) * 3600000

/-! ### Datetime string parsing -/

def isDigitCh (c : Char) : Bool := '0' ≤ c && c ≤ '9'

def digitVal (c : Char) : Nat := c.toNat - 48

def read2 (a b : Char) : Nat := digitVal a * 10 + digitVal b

def read4 (a b c d : Char) : Nat :=
  digitVal a * 1000 + digitVal b * 100 + digitVal c * 10 + digitVal d

def isJsWhitespace (c : Char) : Bool :=
  c = ' ' || c = '\t' || c = '\n' || c = '\r'

/-- Embedding of JavaScript `String.prototype.trim` for the inputs the
server receives. -/
def trimChars (cs : List Char) : List Char :=
  ((cs.dropWhile isJsWhitespace).reverse.dropWhile isJsWhitespace).reverse

/-- The server's prefix regular expression
`^(\d{4})-(\d{2})-(\d{2})T(\d{2}):(\d{2}):(\d{2})`: on success returns the
six components and the unconsumed remainder of the string. -/
def parseCorePrefix : List Char → Option (DateTimeParts × List Char)
  | y1 :: y2 :: y3 :: y4 :: '-' :: m1 :: m2 :: '-' :: d1 :: d2 :: 'T' ::
      h1 :: h2 :: ':' :: n1 :: n2 :: ':' :: s1 :: s2 :: rest =>
    if [y1, y2, y3, y4, m1, m2, d1, d2, h1, h2, n1, n2, s1, s2].all isDigitCh then
      some ({ year := read4 y1 y2 y3 y4, month := read2 m1 m2, day := read2 d1 d2,
              hour := read2 h1 h2, minute := read2 n1 n2, second := read2 s1 s2 }, rest)
    else none
  | _ => none

def endsWithZ (cs : List Char) : Bool := cs.getLast? = some 'Z'

/-- Suffix test for `[+-]\d{2}:\d{2}$`. -/
def endsWithColonOffset (cs : List Char) : Bool :=
  match cs.reverse with
  | b2 :: b1 :: ':' :: a2 :: a1 :: sgn :: _ =>
    (sgn == '+' || sgn == '-') && isDigitCh a1 && isDigitCh a2
      && isDigitCh b1 && isDigitCh b2
  | _ => false

/-- Suffix test for `[+-]\d{4}$`. -/
def endsWith4Offset (cs : List Char) : Bool :=
  match cs.reverse with
  | d4 :: d3 :: d2 :: d1 :: sgn :: _ =>
    (sgn == '+' || sgn == '-') && isDigitCh d1 && isDigitCh d2
      && isDigitCh d3 && isDigitCh d4
  | _ => false

/-- The server's timezone-detection regular expression
`/Z$|[+-]\d{2}:\d{2}$|[+-]\d{4}$/`. -/
def hasTimezoneInfo (cs : List Char) : Bool :=
  endsWithZ cs || endsWithColonOffset cs || endsWith4Offset cs

/-- Embedding of `new Date(...)` on the offset-carrying ISO strings the
server's regular expressions recognise: a `YYYY-MM-DDTHH:mm:ss` core
followed by `Z`, `±HH:MM` or `±HHMM`.  Returns the components and the
offset in minutes east of UTC. -/
def parseWithOffset (cs : List Char) : Option (DateTimeParts × Int) :=
  match parseCorePrefix cs with
  | none => none
  | some (p, rest) =>
    match rest with
    | ['Z'] => some (p, 0)
    | [sgn, h1, h2, ':', m1, m2] =>
      if (sgn == '+' || sgn == '-') && [h1, h2, m1, m2].all isDigitCh
          && read2 h1 h2 ≤ 23 && read2 m1 m2 ≤ 59 then
        let off : Int := read2 h1 h2 * 60 + read2 m1 m2
        some (p, if sgn == '-' then -off else off)
      else none
    | [sgn, h1, h2, m1, m2] =>
      if (sgn == '+' || sgn == '-') && [h1, h2, m1, m2].all isDigitCh
          && read2 h1 h2 ≤ 23 && read2 m1 m2 ≤ 59 then
        let off : Int := read2 h1 h2 * 60 + read2 m1 m2
        some (p, if sgn == '-' then -off else off)
      else none
    | _ => none

/-- Result of `convertToCST`: either the stored UTC instant in epoch
milliseconds together with the America/Chicago display components, or the
error message of the thrown exception. -/
inductive CSTResult where
  | ok (utcDateMs : Int) (cstDisplay : DateTimeParts)
  | invalid (error : String)
  deriving DecidableEq, Repr

/-- Embedding of the server's `convertToCST` (current variant): strings
without timezone information must match the `YYYY-MM-DDTHH:mm:ss` prefix
regular expression and get a fixed `-06:00` offset appended before being
parsed with `new Date`; strings with explicit offsets are parsed as
given.  The appended-string parse succeeds exactly when nothing trails
the seconds field and the components are in range. -/
def convertToCST (dateTimeString : String) : CSTResult :=
  let cs := trimChars dateTimeString.data
  if hasTimezoneInfo cs then
    match parseWithOffset cs with
    | some (p, offMin) =>
      if validParts p then
        let t : Int := (naiveEpochMs p : Int) - offMin * 60000
        .ok t (chicagoPartsOfInstant t)
      else .invalid "Invalid date/time value"
    | none => .invalid "Invalid date/time value"
  else
    match parseCorePrefix cs with
    | none => .invalid "Invalid datetime format. Expected: YYYY-MM-DDTHH:mm:ss"
    | some (p, rest) =>
      if rest.isEmpty && validParts p then
        let t : Int := (naiveEpochMs p : Int) + 6 * 3600000
        .ok t (chicagoPartsOfInstant t)
      else .invalid "Invalid date/time value"

/-- The stored instant of a `convertToCST` result, when valid. -/
def cstUtc : CSTResult → Option Int
  | .ok t _ => some t
  | .invalid _ => none

/-! ### Data model (models/Message.js and models/Device.js) -/

/-- The `status` enum of the Message schema. -/
inductive Status where
  | Draft
  | Scheduled
  | Sent
  | Failed
  | Cancelled
  deriving DecidableEq, Repr

/-- A Message document.  `content` is the schema's name for the body
text; `errorMessage` models the `error` field written by the worker. -/
structure Message where
  id : String
  title : String
  content : String
  scheduledDateTime : Int
  status : Status
  category : String := "Health Tip"
  priority : String := "normal"
  createdBy : String := "System"
  createdAt : Int := 0
  deliveredAt : Option Int := none
  cancelledAt : Option Int := none
  errorMessage : Option String := none
  deriving DecidableEq, Repr

/-- A Device document (the fields the server reads or writes). -/
structure Device where
  id : String
  pushToken : String
  platform : String
  isActive : Bool
  lastActive : Int
  appVersion : Option String := none
  userId : Option String := none
  deriving DecidableEq, Repr

/-- One entry of the Bull queue: the job id (`jobId` option), the
payload's message and device references, and the scheduling options. -/
structure QueueJob where
  jobKey : String
  messageId : String
  deviceId : String
  delay : Int
  attempts : Nat
  deriving DecidableEq, Repr

/-- The mutable state the routes act on: the `messages` and `devices`
collections plus the Bull queue contents. -/
structure ServerState where
  messages : List Message
  devices : List Device
  queue : List QueueJob
  deriving DecidableEq, Repr

/-! ### Queue primitives (Bull contract) -/

/-- The per-device job id computed at enqueue time:
`` `${message._id}-${device._id}` ``. -/
def jobKey (messageId deviceId : String) : String :=
  messageId ++ "-" ++ deviceId

/-- `notificationQueue.add` with an explicit `jobId`: Bull ignores an add
whose job id is already present, so re-submission never duplicates an
entry. -/
def queueAdd (q : List QueueJob) (j : QueueJob) : List QueueJob :=
  if q.any (fun k => k.jobKey == j.jobKey) then q else q ++ [j]

/-- `notificationQueue.getJob`. -/
def queueGetJob (q : List QueueJob) (key : String) : Option QueueJob :=
  q.find? (fun j => j.jobKey == key)

/-- `job.remove()` for the job with the given id. -/
def queueRemoveJob (q : List QueueJob) (key : String) : List QueueJob :=
  q.filter (fun j => j.jobKey != key)

def removeKeys (q : List QueueJob) (keys : List String) : List QueueJob :=
  keys.foldl queueRemoveJob q

/-! ### JavaScript helpers -/

/-- JavaScript `a || b` on an optional string against a string default
(`undefined` and the empty string are falsy). -/
def jsOrStr (a : Option String) (b : String) : String :=
  match a with
  | some s => if s = "" then b else s
  | none => b

/-- JavaScript `a || b` on optional strings. -/
def jsOrOpt (a b : Option String) : Option String :=
  match a with
  | some s => if s = "" then b else some s
  | none => b

/-! ### POST /api/push-messages (create and schedule) -/

/-- The request body fields the route reads. -/
structure CreateInput where
  title : String
  body : String
  scheduledDateTime : String
  deviceId : Option String := none
  category : Option String := none
  priority : Option String := none
  createdBy : Option String := none
  deriving Repr

inductive CreateResult where
  | missingFields
  | invalidFormat (details : String)
  | pastTime
  | noDevices
  | ok (messageId : String) (results : List (String × String))
  deriving DecidableEq, Repr

/-- Device resolution: a requested `deviceId` is looked up directly,
otherwise all active devices are targeted. -/
def resolveDevices (st : ServerState) (inp : CreateInput) : List Device :=
  match inp.deviceId with
  | some did => st.devices.filter (fun d => d.id == did)
  | none => st.devices.filter (fun d => d.isActive)

/-- The single Message record the route stores. -/
def mkScheduledMessage (mid : String) (inp : CreateInput) (t now : Int) : Message :=
  { id := mid, title := inp.title, content := inp.body,
    scheduledDateTime := t, status := .Scheduled,
    category := jsOrStr inp.category "Health Tip",
    priority := jsOrStr inp.priority "normal",
    createdBy := jsOrStr inp.createdBy "System",
    createdAt := now }

/-- The dispatch job enqueued for one target device; the effective delay
is clamped to at least one second. -/
def mkDispatchJob (mid : String) (delay : Int) (d : Device) : QueueJob :=
  { jobKey := jobKey mid d.id, messageId := mid, deviceId := d.id,
    delay := if delay < 1000 then 1000 else delay, attempts := 3 }

/-- Embedding of the current `POST /api/push-messages` route: validates
the fields, normalises the scheduled time, rejects past times beyond the
ten-second grace window, resolves the target devices, stores ONE message
record and enqueues one per-device job. -/
def createScheduled (st : ServerState) (inp : CreateInput) (now : Int)
    (freshMid : String) : ServerState × CreateResult :=
  if inp.title = "" || inp.body = "" || inp.scheduledDateTime = "" then
    (st, .missingFields)
  else
    match convertToCST inp.scheduledDateTime with
    | .invalid e => (st, .invalidFormat e)
    | .ok t _ =>
      let delay := t - now
      if delay < -10000 then (st, .pastTime)
      else
        let devices := resolveDevices st inp
        if devices.isEmpty then (st, .noDevices)
        else
          let message := mkScheduledMessage freshMid inp t now
          let jobs := devices.map (mkDispatchJob freshMid delay)
          ({ st with messages := st.messages ++ [message],
                     queue := jobs.foldl queueAdd st.queue },
           .ok freshMid (jobs.map (fun j => (j.jobKey, j.deviceId))))

/-! ### The delivery worker (notificationQueue.process) -/

/-- The message object embedded in a job's data: its record id and the
per-device target added at enqueue time. -/
structure JobPayload where
  messageId : String
  deviceId : Option String := none
  deriving DecidableEq, Repr

/-- `result.data` of the Expo push gateway response. -/
structure GatewayData where
  status : Option String := none
  detailsError : Option String := none
  deriving DecidableEq, Repr

/-- The parsed gateway response body; `errors` models the optional
`result.errors` array of message strings. -/
structure GatewayResponse where
  data : Option GatewayData := none
  errors : List (Option String) := []
  deriving DecidableEq, Repr

/-- `result.data && result.data.status === 'ok'`. -/
def respOk (r : GatewayResponse) : Bool :=
  match r.data with
  | some d => d.status == some "ok"
  | none => false

def gatewayDetailsError (r : GatewayResponse) : Option String :=
  match r.data with
  | some d => d.detailsError
  | none => none

def firstErrorsMessage (r : GatewayResponse) : Option String :=
  match r.errors.head? with
  | some m => m
  | none => none

/-- The stored failure reason:
`result.data?.details?.error || (result.errors && result.errors[0]?.message) || 'Unknown error'`. -/
def failReason (r : GatewayResponse) : String :=
  jsOrStr (jsOrOpt (gatewayDetailsError r) (firstErrorsMessage r)) "Unknown error"

inductive WorkerOutcome where
  | deviceNotFound
  | sent
  | failed
  deriving DecidableEq, Repr

/-- `Message.findByIdAndUpdate`: rewrites the fields of the matching
document, leaving every other document untouched. -/
def updateMessage (st : ServerState) (mid : String) (f : Message → Message) :
    ServerState :=
  { st with messages := st.messages.map (fun m => if m.id = mid then f m else m) }

/-- Embedding of the queue processor: resolve the target device
(`message.deviceId || message._id`); if absent return a non-retryable
failure without touching storage; otherwise record the gateway outcome,
writing `Sent` with `deliveredAt` on success and `Failed` with the
reported reason otherwise. -/
def processJob (st : ServerState) (jp : JobPayload) (resp : GatewayResponse)
    (now : Int) : ServerState × WorkerOutcome :=
  let targetId := jsOrStr jp.deviceId jp.messageId
  match st.devices.find? (fun d => d.id == targetId) with
  | none => (st, .deviceNotFound)
  | some _ =>
    if respOk resp then
      (updateMessage st jp.messageId
        (fun m => { m with status := .Sent, deliveredAt := some now }), .sent)
    else
      (updateMessage st jp.messageId
        (fun m => { m with status := .Failed, errorMessage := some (failReason resp) }),
       .failed)

/-! ### DELETE /api/push-messages/:messageId (cancel or delete) -/

inductive CancelResult where
  | notFound
  | cancelled (warning : Bool)
  | deletedDelivered
  | deletedOther (previous : Status)
  deriving DecidableEq, Repr

/-- The queue removal attempts of the cancel route, in order: the plain
record-id job, then one candidate per active device. -/
def cancelCandidateKeys (st : ServerState) (messageId : String) : List String :=
  messageId :: (st.devices.filter (fun d => d.isActive)).map
    (fun d => jobKey messageId d.id)

/-- Embedding of `DELETE /api/push-messages/:messageId`.  `queueBudget`
models the queue collaborator: `none` means every queue operation
succeeds, `some k` means the operation after the first `k` removal
attempts throws (the route's catch block).  A record in a cancellable
state is marked `Cancelled` with `cancelledAt` set on BOTH paths of the
try/catch; the catch path adds a warning to the response.  (`Pending`
appears in the route's cancellable list but is not a value of the schema
status enum, so `Scheduled` is the only cancellable status.)  Terminal
records are deleted outright. -/
def cancelMessage (st : ServerState) (messageId : String)
    (queueBudget : Option Nat) (now : Int) : ServerState × CancelResult :=
  match st.messages.find? (fun m => m.id == messageId) with
  | none => (st, .notFound)
  | some msg =>
    if msg.status = .Scheduled then
      let keys := cancelCandidateKeys st messageId
      let processed :=
        match queueBudget with
        | none => keys
        | some k => keys.take k
      let warning :=
        match queueBudget with
        | none => false
        | some k => decide (k < keys.length)
      let q := removeKeys st.queue processed
      let msgs := st.messages.map (fun m =>
        if m.id = messageId then
          { m with status := .Cancelled, cancelledAt := some now }
        else m)
      ({ st with messages := msgs, queue := q }, .cancelled warning)
    else if msg.status = .Sent then
      ({ st with messages := st.messages.filter (fun m => m.id != messageId) },
       .deletedDelivered)
    else
      ({ st with messages := st.messages.filter (fun m => m.id != messageId) },
       .deletedOther msg.status)

/-! ### DELETE /api/push-messages (bulk delete) -/

inductive BulkFilter where
  | byIds (ids : List String)
  | byStatus (s : Status)
  | byOlderThan (t : Int)
  deriving DecidableEq, Repr

def matchesFilter : BulkFilter → Message → Bool
  | .byIds ids, m => ids.contains m.id
  | .byStatus s, m => m.status == s
  | .byOlderThan t, m => m.createdAt < t

/-- Embedding of the bulk-delete route: for every matching record in a
cancellable state it looks up ONLY the job whose id is the record id
itself (`getJob(message._id.toString())`), removes it when present and
counts the removal, then deletes every matching record.  Returns the new
state, the deleted-record count and the removed-job count. -/
def bulkDelete (st : ServerState) (f : BulkFilter) :
    ServerState × Nat × Nat :=
  let toDelete := st.messages.filter (matchesFilter f)
  let cleanup := toDelete.foldl
    (fun (acc : List QueueJob × Nat) m =>
      if m.status == Status.Scheduled then
        match queueGetJob acc.1 m.id with
        | some _ => (queueRemoveJob acc.1 m.id, acc.2 + 1)
        | none => acc
      else acc)
    (st.queue, 0)
  ({ st with messages := st.messages.filter (fun m => !matchesFilter f m),
             queue := cleanup.1 },
   (toDelete.length, cleanup.2))

/-! ### POST /api/device/register -/

structure RegisterInput where
  pushToken : String
  platform : Option String := none
  appVersion : Option String := none
  userId : Option String := none
  deriving Repr

/-- Embedding of the registration route: an existing device with the
same push token is updated in place (its `lastActive` refreshed and the
optional metadata merged) and its id returned; otherwise a new device is
created.  Returns `none` exactly when the push token is missing. -/
def registerDevice (st : ServerState) (inp : RegisterInput) (now : Int)
    (freshId : String) : ServerState × Option String :=
  if inp.pushToken = "" then (st, none)
  else
    match st.devices.find? (fun d => d.pushToken == inp.pushToken) with
    | some d =>
      let upd := fun (dv : Device) =>
        { dv with lastActive := now,
                  appVersion := jsOrOpt inp.appVersion dv.appVersion,
                  platform := jsOrStr inp.platform dv.platform,
                  userId := jsOrOpt inp.userId dv.userId }
      ({ st with devices :=
           st.devices.map (fun dv => if dv.id = d.id then upd dv else dv) },
       some d.id)
    | none =>
      let nd : Device :=
        { id := freshId, pushToken := inp.pushToken,
          platform := jsOrStr inp.platform "unknown",
          isActive := true, lastActive := now,
          appVersion := some (jsOrStr inp.appVersion "1.0.0"),
          userId := jsOrOpt inp.userId none }
      ({ st with devices := st.devices ++ [nd] }, some freshId)

/-! ### Sample data for concrete evaluations -/

def wDevA : Device :=
  { id := "d1", pushToken := "tokA", platform := "ios", isActive := true, lastActive := 0 }

def wDevB : Device :=
  { id := "d2", pushToken := "tokB", platform := "android", isActive := true, lastActive := 0 }

def wMsgScheduled : Message :=
  { id := "m1", title := "Hi", content := "Body", scheduledDateTime := 0, status := .Scheduled }

def wMsgCancelled : Message :=
  { id := "m1", title := "Hi", content := "Body", scheduledDateTime := 0, status := .Cancelled }

def wMsgTermSurvivor : Message :=
  { id := "m9", title := "Old", content := "Done", scheduledDateTime := 0, status := .Cancelled }

def wJob : QueueJob :=
  { jobKey := jobKey "m1" "d1", messageId := "m1", deviceId := "d1", delay := 1000,
    attempts := 3 }

def wOkResp : GatewayResponse := { data := some { status := some "ok" } }

def wFailResp : GatewayResponse :=
  { data := some { status := some "error", detailsError := some "DeviceNotRegistered" } }

def wCreateInput : CreateInput :=
  { title := "Hi", body := "Body", scheduledDateTime := "2025-01-15T09:30:00" }

def wNow : Int := 1736955000000

def wSt1 : ServerState := { messages := [], devices := [wDevA, wDevB], queue := [] }

def wStCancelled : ServerState := { messages := [wMsgCancelled], devices := [wDevA], queue := [] }

def wStTwo : ServerState :=
  { messages := [wMsgTermSurvivor, wMsgScheduled], devices := [wDevA], queue := [wJob] }

def wStSched : ServerState := { messages := [wMsgScheduled], devices := [wDevA], queue := [wJob] }

/-! ### Helper lemmas -/

theorem append_sep_inj (a b c d : List Char) (ha : '-' ∉ a) (hc : '-' ∉ c)
    (h : a ++ '-' :: b = c ++ '-' :: d) : a = c ∧ b = d := by
  induction a generalizing c with
  | nil =>
    cases c with
    | nil => simpa using h
    | cons x xs =>
      exfalso
      simp only [List.nil_append, List.cons_append, List.cons.injEq] at h
      exact hc (h.1 ▸ List.mem_cons_self x xs)
  | cons x xs ih =>
    cases c with
    | nil =>
      exfalso
      simp only [List.nil_append, List.cons_append, List.cons.injEq] at h
      exact ha (h.1.symm ▸ List.mem_cons_self x xs)
    | cons y ys =>
      simp only [List.cons_append, List.cons.injEq] at h
      have hrec := ih ys (fun hm => ha (List.mem_cons_of_mem x hm))
        (fun hm => hc (List.mem_cons_of_mem y hm)) h.2
      exact ⟨by rw [h.1, hrec.1], hrec.2⟩

theorem jobKey_inj (m1 d1 m2 d2 : String) (h1 : '-' ∉ m1.data) (h2 : '-' ∉ m2.data)
    (h : jobKey m1 d1 = jobKey m2 d2) : m1 = m2 ∧ d1 = d2 := by
  have hd : m1.data ++ '-' :: d1.data = m2.data ++ '-' :: d2.data := by
    have := congrArg String.data h
    simpa [jobKey, String.data_append] using this
  obtain ⟨hm, hdd⟩ := append_sep_inj _ _ _ _ h1 h2 hd
  exact ⟨String.ext hm, String.ext hdd⟩

theorem jobKey_right_inj (m a b : String) (h : jobKey m a = jobKey m b) : a = b := by
  have hd : m.data ++ '-' :: a.data = m.data ++ '-' :: b.data := by
    have := congrArg String.data h
    simpa [jobKey, String.data_append] using this
  have := List.append_cancel_left hd
  exact String.ext (by simpa using this)

theorem queueAdd_of_fresh (q : List QueueJob) (j : QueueJob)
    (h : ∀ j0 ∈ q, j0.jobKey ≠ j.jobKey) : queueAdd q j = q ++ [j] := by
  have hany : q.any (fun k => k.jobKey == j.jobKey) = false := by
    simp only [List.any_eq_false, beq_iff_eq]
    exact h
  simp [queueAdd, hany]

theorem foldl_queueAdd_of_fresh (jobs q : List QueueJob)
    (hfresh : ∀ j ∈ jobs, ∀ j0 ∈ q, j0.jobKey ≠ j.jobKey)
    (hnodup : jobs.Pairwise (fun a b => a.jobKey ≠ b.jobKey)) :
    jobs.foldl queueAdd q = q ++ jobs := by
  induction jobs generalizing q with
  | nil => simp
  | cons j rest ih =>
    have hadd : queueAdd q j = q ++ [j] :=
      queueAdd_of_fresh q j (fun j0 h0 => hfresh j (List.mem_cons_self j rest) j0 h0)
    rw [List.foldl_cons, hadd, ih (q ++ [j])]
    · simp
    · intro j' hj' j0 hj0
      rcases List.mem_append.1 hj0 with hq | hj
      · exact hfresh j' (List.mem_cons_of_mem j hj') j0 hq
      · have : j0 = j := by simpa using hj
        subst this
        exact (List.pairwise_cons.1 hnodup).1 j' hj'
    · exact (List.pairwise_cons.1 hnodup).2

theorem mem_of_nodup_ids {l : List Message}
    (h : (l.map Message.id).Nodup) {a b : Message}
    (ha : a ∈ l) (hb : b ∈ l) (hab : a.id = b.id) : a = b :=
  List.inj_on_of_nodup_map h ha hb hab

/-! ### Claim theorems -/

/-- C1: a valid creation request (non-empty title and body, a scheduled
time that normalises and is within the grace window) resolving a
non-empty device set stores exactly ONE new message record, with status
`Scheduled`, and enqueues exactly one dispatch job per resolved device —
never one record per device. -/
theorem createScheduled_one_record_n_jobs
    (st : ServerState) (inp : CreateInput) (now : Int) (mid : String)
    (t : Int) (disp : DateTimeParts)
    (htitle : inp.title ≠ "") (hbody : inp.body ≠ "")
    (hsched : inp.scheduledDateTime ≠ "")
    (hconv : convertToCST inp.scheduledDateTime = .ok t disp)
    (hfut : ¬ t - now < -10000)
    (hdev : resolveDevices st inp ≠ [])
    (hids : (resolveDevices st inp).Pairwise (fun a b => a.id ≠ b.id))
    (hfresh : ∀ j ∈ st.queue, ∀ d ∈ resolveDevices st inp,
        j.jobKey ≠ jobKey mid d.id) :
    (createScheduled st inp now mid).1.messages
        = st.messages ++ [mkScheduledMessage mid inp t now] ∧
    (mkScheduledMessage mid inp t now).status = .Scheduled ∧
    (createScheduled st inp now mid).1.queue
        = st.queue ++ (resolveDevices st inp).map (mkDispatchJob mid (t - now)) ∧
    (createScheduled st inp now mid).1.devices = st.devices := by
  have hfold :
      ((resolveDevices st inp).map (mkDispatchJob mid (t - now))).foldl queueAdd st.queue
        = st.queue ++ (resolveDevices st inp).map (mkDispatchJob mid (t - now)) := by
    apply foldl_queueAdd_of_fresh
    · intro j hj j0 hj0
      obtain ⟨d, hd, rfl⟩ := List.mem_map.1 hj
      exact hfresh j0 hj0 d hd
    · refine List.Pairwise.map _ ?_ hids
      intro a b hab he
      exact hab (jobKey_right_inj mid a.id b.id he)
  have hne : (resolveDevices st inp).isEmpty = false := by
    cases hres : resolveDevices st inp with
    | nil => exact absurd hres hdev
    | cons x xs => simp
  simp [createScheduled, hconv, htitle, hbody, hsched, hfut, hne, hfold,
    mkScheduledMessage]

theorem createScheduled_one_record_n_jobs_witness :
    (createScheduled wSt1 wCreateInput wNow "m1").1.messages
        = wSt1.messages ++ [mkScheduledMessage "m1" wCreateInput 1736955000000 wNow] ∧
    (mkScheduledMessage "m1" wCreateInput 1736955000000 wNow).status = .Scheduled ∧
    (createScheduled wSt1 wCreateInput wNow "m1").1.queue
        = wSt1.queue ++ (resolveDevices wSt1 wCreateInput).map
            (mkDispatchJob "m1" (1736955000000 - wNow)) ∧
    (createScheduled wSt1 wCreateInput wNow "m1").1.devices = wSt1.devices :=
  createScheduled_one_record_n_jobs wSt1 wCreateInput wNow "m1" 1736955000000
    ⟨2025, 1, 15, 9, 30, 0⟩ (by decide) (by decide) (by decide) (by decide)
    (by decide) (by decide) (by decide) (by decide)

/-- C3: a creation request whose normalised scheduled instant lies more
than the ten-second grace window in the past is rejected with the
past-time error, and the rejection is atomic — the returned state is the
input state, so no record is stored and no job is enqueued. -/
theorem createScheduled_past_time_atomic_reject
    (st : ServerState) (inp : CreateInput) (now : Int) (mid : String)
    (t : Int) (disp : DateTimeParts)
    (htitle : inp.title ≠ "") (hbody : inp.body ≠ "")
    (hsched : inp.scheduledDateTime ≠ "")
    (hconv : convertToCST inp.scheduledDateTime = .ok t disp)
    (hpast : t - now < -10000) :
    createScheduled st inp now mid = (st, .pastTime) := by
  simp [createScheduled, hconv, htitle, hbody, hsched, hpast]

theorem createScheduled_past_time_atomic_reject_witness :
    createScheduled wSt1 wCreateInput 1736958600000 "m1" = (wSt1, .pastTime) :=
  createScheduled_past_time_atomic_reject wSt1 wCreateInput 1736958600000 "m1"
    1736955000000 ⟨2025, 1, 15, 9, 30, 0⟩ (by decide) (by decide) (by decide)
    (by decide) (by decide)

/-- C4: the dispatch job key is a deterministic, collision-free function
of the (record id, device id) pair — for ids free of the separator
character, as Mongo ObjectIds are, two pairs give equal keys exactly when
they are the same pair — and adding a job with an already-present key to
the queue is a no-op, so re-submission never yields two live entries. -/
theorem jobKey_collision_free_and_queue_idempotent
    (m1 d1 m2 d2 : String) (q : List QueueJob) (j : QueueJob)
    (h1 : '-' ∉ m1.data) (h2 : '-' ∉ m2.data) :
    (jobKey m1 d1 = jobKey m2 d2 ↔ m1 = m2 ∧ d1 = d2) ∧
    queueAdd (queueAdd q j) j = queueAdd q j := by
  refine ⟨⟨jobKey_inj m1 d1 m2 d2 h1 h2, ?_⟩, ?_⟩
  · rintro ⟨rfl, rfl⟩
    rfl
  · by_cases hq : q.any (fun k => k.jobKey == j.jobKey)
    · simp [queueAdd, hq]
    · simp [queueAdd, hq, List.any_append]

theorem jobKey_collision_free_and_queue_idempotent_witness :
    (jobKey "a1" "b1" = jobKey "a1" "b2" ↔ ("a1" : String) = "a1"
        ∧ ("b1" : String) = "b2") ∧
    queueAdd (queueAdd [] wJob) wJob = queueAdd [] wJob :=
  jobKey_collision_free_and_queue_idempotent "a1" "b1" "a1" "b2" [] wJob
    (by decide) (by decide)

/-- C9: when the delivery worker cannot resolve the target device, it
returns the device-not-found failure outcome and the whole state —
every message record included — is left exactly unchanged. -/
theorem processJob_device_not_found_frame
    (st : ServerState) (jp : JobPayload) (resp : GatewayResponse) (now : Int)
    (hdev : st.devices.find?
        (fun d => d.id == jsOrStr jp.deviceId jp.messageId) = none) :
    processJob st jp resp now = (st, .deviceNotFound) := by
  simp [processJob, hdev]

theorem processJob_device_not_found_frame_witness :
    processJob wStCancelled { messageId := "m1", deviceId := some "dX" } wOkResp 5
      = (wStCancelled, .deviceNotFound) :=
  processJob_device_not_found_frame wStCancelled
    { messageId := "m1", deviceId := some "dX" } wOkResp 5 (by decide)

/-- C5: when the gateway call returns and the target device resolves, the
worker writes `Sent` with `deliveredAt` on the success indicator and
`Failed` with the gateway-reported reason (or the generic fallback when
none is present) on a failure or malformed response; no other status
value is written and records other than the processed one are untouched. -/
theorem processJob_gateway_outcome
    (st : ServerState) (jp : JobPayload) (resp : GatewayResponse) (now : Int)
    (dev : Device)
    (hdev : st.devices.find?
        (fun d => d.id == jsOrStr jp.deviceId jp.messageId) = some dev) :
    ((processJob st jp resp now).2
        = if respOk resp then WorkerOutcome.sent else WorkerOutcome.failed) ∧
    (∀ m' ∈ (processJob st jp resp now).1.messages,
      (m'.id ≠ jp.messageId → m' ∈ st.messages) ∧
      (m'.id = jp.messageId → respOk resp = true →
          m'.status = .Sent ∧ m'.deliveredAt = some now) ∧
      (m'.id = jp.messageId → respOk resp = false →
          m'.status = .Failed ∧ m'.errorMessage = some (failReason resp))) ∧
    (∀ e, gatewayDetailsError resp = some e → e ≠ "" → failReason resp = e) ∧
    (gatewayDetailsError resp = none → resp.errors = [] →
        failReason resp = "Unknown error") := by
  refine ⟨?_, ?_, ?_, ?_⟩
  · cases hok : respOk resp <;> simp [processJob, hdev, hok]
  · intro m' hm'
    cases hok : respOk resp with
    | true =>
      have hmm : (processJob st jp resp now).1.messages
          = st.messages.map (fun m => if m.id = jp.messageId then
              { m with status := .Sent, deliveredAt := some now } else m) := by
        simp [processJob, hdev, hok, updateMessage]
      rw [hmm] at hm'
      obtain ⟨a, ha, hEq⟩ := List.mem_map.1 hm'
      by_cases hai : a.id = jp.messageId
      · have hid : m'.id = jp.messageId := by rw [← hEq]; simp [hai]
        refine ⟨fun hne => absurd hid hne, fun _ _ => ?_, fun _ hcf => ?_⟩
        · rw [← hEq]
          simp [hai]
        · simp at hcf
      · have hma : m' = a := by rw [← hEq]; simp [hai]
        subst hma
        exact ⟨fun _ => ha, fun hc => absurd hc hai, fun hc => absurd hc hai⟩
    | false =>
      have hmm : (processJob st jp resp now).1.messages
          = st.messages.map (fun m => if m.id = jp.messageId then
              { m with status := .Failed, errorMessage := some (failReason resp) }
            else m) := by
        simp [processJob, hdev, hok, updateMessage]
      rw [hmm] at hm'
      obtain ⟨a, ha, hEq⟩ := List.mem_map.1 hm'
      by_cases hai : a.id = jp.messageId
      · have hid : m'.id = jp.messageId := by rw [← hEq]; simp [hai]
        refine ⟨fun hne => absurd hid hne, fun _ hct => ?_, fun _ _ => ?_⟩
        · simp at hct
        · rw [← hEq]
          simp [hai]
      · have hma : m' = a := by rw [← hEq]; simp [hai]
        subst hma
        exact ⟨fun _ => ha, fun hc => absurd hc hai, fun hc => absurd hc hai⟩
  · intro e he hne
    simp [failReason, gatewayDetailsError] at he ⊢
    simp [jsOrOpt, he, hne, jsOrStr]
  · intro he herr
    simp [failReason, jsOrOpt, jsOrStr, he, firstErrorsMessage, herr]

theorem processJob_gateway_outcome_witness :
    ((processJob wStSched { messageId := "m1", deviceId := some "d1" } wFailResp 5).2
        = if respOk wFailResp then WorkerOutcome.sent else WorkerOutcome.failed) ∧
    (∀ m' ∈ (processJob wStSched { messageId := "m1", deviceId := some "d1" }
        wFailResp 5).1.messages,
      (m'.id ≠ "m1" → m' ∈ wStSched.messages) ∧
      (m'.id = "m1" → respOk wFailResp = true →
          m'.status = .Sent ∧ m'.deliveredAt = some 5) ∧
      (m'.id = "m1" → respOk wFailResp = false →
          m'.status = .Failed ∧ m'.errorMessage = some (failReason wFailResp))) ∧
    (∀ e, gatewayDetailsError wFailResp = some e → e ≠ "" →
        failReason wFailResp = e) ∧
    (gatewayDetailsError wFailResp = none → wFailResp.errors = [] →
        failReason wFailResp = "Unknown error") :=
  processJob_gateway_outcome wStSched { messageId := "m1", deviceId := some "d1" }
    wFailResp 5 wDevA (by decide)

/-- C2 counterexample: the claim is false on the code — a delivery-worker
execution overwrites a terminal `Cancelled` record with `Sent`, so a
terminal status is not preserved by every operation of the system. -/
theorem terminal_status_overwritten_counterexample :
    wStCancelled.messages.map Message.status = [Status.Cancelled] ∧
    (processJob wStCancelled { messageId := "m1", deviceId := some "d1" }
        wOkResp 5).1.messages.map Message.status = [Status.Sent] := by
  decide

/-- C2 amended: once a record holds a terminal status, no cancellation
operation changes it — the cancel route either rejects, deletes the
record outright, or leaves it untouched, and never assigns it a new
status; a delivery-worker execution, however, overwrites the stored
status with its own outcome regardless of the prior value. -/
theorem cancel_never_reverts_terminal_status
    (st : ServerState) (mid : String) (qb : Option Nat) (now : Int)
    (m m' : Message)
    (hnodup : (st.messages.map Message.id).Nodup)
    (hm : m ∈ st.messages)
    (hterm : m.status = .Sent ∨ m.status = .Failed ∨ m.status = .Cancelled)
    (hm' : m' ∈ (cancelMessage st mid qb now).1.messages)
    (hid : m'.id = m.id) : m' = m := by
  cases hfind : st.messages.find? (fun x => x.id == mid) with
  | none =>
    rw [show (cancelMessage st mid qb now).1.messages = st.messages by
      simp [cancelMessage, hfind]] at hm'
    exact mem_of_nodup_ids hnodup hm' hm hid
  | some msg =>
    have hmsgmem : msg ∈ st.messages := List.mem_of_find?_eq_some hfind
    have hmsgid : msg.id = mid := by simpa using List.find?_some hfind
    by_cases hs : msg.status = .Scheduled
    · have hmm : (cancelMessage st mid qb now).1.messages
          = st.messages.map (fun x => if x.id = mid then
              { x with status := .Cancelled, cancelledAt := some now } else x) := by
        simp [cancelMessage, hfind, hs]
      rw [hmm] at hm'
      obtain ⟨a, ha, hEq⟩ := List.mem_map.1 hm'
      by_cases hai : a.id = mid
      · exfalso
        have hm'id : m'.id = mid := by rw [← hEq]; simp [hai]
        have hmid : m.id = mid := by rw [← hid]; exact hm'id
        have hmeq : m = msg :=
          mem_of_nodup_ids hnodup hm hmsgmem (by rw [hmid, hmsgid])
        rcases hterm with h | h | h <;> rw [hmeq, hs] at h <;> exact absurd h (by simp)
      · have hma : m' = a := by rw [← hEq]; simp [hai]
        subst hma
        exact mem_of_nodup_ids hnodup ha hm hid
    · have hmm : (cancelMessage st mid qb now).1.messages
          = st.messages.filter (fun x => x.id != mid) := by
        by_cases hsent : msg.status = .Sent
        · simp [cancelMessage, hfind, hs, hsent]
        · simp [cancelMessage, hfind, hs, hsent]
      rw [hmm] at hm'
      exact mem_of_nodup_ids hnodup (List.mem_of_mem_filter hm') hm hid

theorem cancel_never_reverts_terminal_status_witness :
    wMsgTermSurvivor.status = Status.Cancelled ∧
    wMsgTermSurvivor ∈ (cancelMessage wStTwo "m1" none 7).1.messages ∧
    wMsgTermSurvivor = wMsgTermSurvivor := by
  refine ⟨by decide, by decide, ?_⟩
  exact cancel_never_reverts_terminal_status wStTwo "m1" none 7 wMsgTermSurvivor
    wMsgTermSurvivor (by decide) (by decide) (by decide) (by decide) (by decide)

/-- C7: cancelling a record whose status is `Scheduled` always
transitions it to `Cancelled` with `cancelledAt` set, whatever number of
queue-removal attempts succeed before the queue collaborator throws; a
removal failure only adds a warning to the response and never blocks the
transition. -/
theorem cancelScheduled_always_cancelled
    (st : ServerState) (mid : String) (qb : Option Nat) (now : Int) (msg : Message)
    (hfind : st.messages.find? (fun m => m.id == mid) = some msg)
    (hsched : msg.status = .Scheduled) :
    ((cancelMessage st mid qb now).2 = .cancelled
        (match qb with
         | none => false
         | some k => decide (k < (cancelCandidateKeys st mid).length))) ∧
    (∀ m' ∈ (cancelMessage st mid qb now).1.messages, m'.id = mid →
        m'.status = .Cancelled ∧ m'.cancelledAt = some now) := by
  constructor
  · simp [cancelMessage, hfind, hsched]
  · intro m' hm' hmid
    have hmm : (cancelMessage st mid qb now).1.messages
        = st.messages.map (fun x => if x.id = mid then
            { x with status := .Cancelled, cancelledAt := some now } else x) := by
      simp [cancelMessage, hfind, hsched]
    rw [hmm] at hm'
    obtain ⟨a, ha, hEq⟩ := List.mem_map.1 hm'
    by_cases hai : a.id = mid
    · rw [← hEq]
      simp [hai]
    · exfalso
      have : m'.id = a.id := by rw [← hEq]; simp [hai]
      exact hai (by rw [← this, hmid])

theorem cancelScheduled_always_cancelled_witness :
    (cancelMessage wStSched "m1" (some 0) 7).2 = .cancelled true ∧
    (cancelMessage wStSched "m1" (some 0) 7).1.queue = [wJob] := by
  refine ⟨?_, by decide⟩
  exact (cancelScheduled_always_cancelled wStSched "m1" (some 0) 7 wMsgScheduled
    (by decide) (by decide)).1

/-- C10: device registration is idempotent per push token — with at most
one device holding the token beforehand, at most one holds it afterwards;
when one exists its id is returned and no record is added, and when none
exists a single new record is created. -/
theorem registerDevice_idempotent_per_token
    (st : ServerState) (inp : RegisterInput) (now : Int) (fid : String)
    (htok : inp.pushToken ≠ "")
    (hinv : st.devices.countP (fun d => d.pushToken == inp.pushToken) ≤ 1) :
    (registerDevice st inp now fid).1.devices.countP
        (fun d => d.pushToken == inp.pushToken) ≤ 1 ∧
    (∀ d, st.devices.find? (fun dv => dv.pushToken == inp.pushToken) = some d →
        (registerDevice st inp now fid).2 = some d.id ∧
        (registerDevice st inp now fid).1.devices.length = st.devices.length) ∧
    (st.devices.find? (fun dv => dv.pushToken == inp.pushToken) = none →
        (registerDevice st inp now fid).2 = some fid ∧
        (registerDevice st inp now fid).1.devices.length = st.devices.length + 1) := by
  cases hfind : st.devices.find? (fun dv => dv.pushToken == inp.pushToken) with
  | none =>
    have hzero : st.devices.countP (fun d => d.pushToken == inp.pushToken) = 0 := by
      rw [List.countP_eq_zero]
      intro a ha
      have := List.find?_eq_none.1 hfind a ha
      simpa using this
    refine ⟨?_, ?_, ?_⟩
    · simp [registerDevice, htok, hfind, List.countP_append, hzero]
    · intro d hd
      simp [hfind] at hd
    · intro _
      simp [registerDevice, htok, hfind]
  | some d =>
    have hcount : (registerDevice st inp now fid).1.devices.countP
        (fun dv => dv.pushToken == inp.pushToken)
        = st.devices.countP (fun dv => dv.pushToken == inp.pushToken) := by
      simp only [registerDevice, if_neg htok, hfind]
      rw [List.countP_map]
      apply List.countP_congr
      intro a _
      by_cases hai : a.id = d.id <;> simp [hai, Function.comp]
    refine ⟨?_, ?_, ?_⟩
    · rw [hcount]
      exact hinv
    · intro d2 hd2
      obtain rfl : d = d2 := by injection hd2
      constructor
      · simp [registerDevice, htok, hfind]
      · simp [registerDevice, htok, hfind]
    · intro hnone
      cases hnone

theorem registerDevice_idempotent_per_token_witness :
    (registerDevice wSt1 { pushToken := "tokA" } 9 "dNew").2 = some wDevA.id ∧
    (registerDevice wSt1 { pushToken := "tokA" } 9 "dNew").1.devices.length
      = wSt1.devices.length :=
  (registerDevice_idempotent_per_token wSt1 { pushToken := "tokA" } 9 "dNew"
    (by decide) (by decide)).2.1 wDevA (by decide)

/-- C6 counterexample: the claim is false on the code — the offset-less
input 2025-07-01T12:00:00 falls inside daylight saving time, where the
America/Chicago civil interpretation is UTC-05:00, yet `convertToCST`
stores the instant at the fixed offset UTC-06:00 (one hour later). -/
theorem convertToCST_not_america_chicago_counterexample :
    cstUtc (convertToCST "2025-07-01T12:00:00") = some 1751392800000 ∧
    specChicagoInterpretMs ⟨2025, 7, 1, 12, 0, 0⟩ = 1751389200000 ∧
    hasTimezoneInfo (trimChars ("2025-07-01T12:00:00").data) = false ∧
    (1751392800000 : Int) ≠ 1751389200000 := by
  decide

/-- C6 amended: an input without offset information is interpreted at
the fixed offset UTC-06:00 (Central Standard Time) year-round; this
coincides with the America/Chicago civil interpretation exactly when the
datetime falls outside daylight saving time.  Inputs carrying explicit
offset information are parsed as given. -/
theorem convertToCST_fixed_cst_offset
    (s : String) (p : DateTimeParts)
    (hno : hasTimezoneInfo (trimChars s.data) = false)
    (hparse : parseCorePrefix (trimChars s.data) = some (p, []))
    (hvalid : validParts p = true) :
    convertToCST s = .ok ((naiveEpochMs p : Int) + 6 * 3600000)
        (chicagoPartsOfInstant ((naiveEpochMs p : Int) + 6 * 3600000)) ∧
    (chicagoWallIsDST p = false →
        cstUtc (convertToCST s) = some (specChicagoInterpretMs p)) ∧
    (∀ (s2 : String) (p2 : DateTimeParts) (offMin : Int),
        hasTimezoneInfo (trimChars s2.data) = true →
        parseWithOffset (trimChars s2.data) = some (p2, offMin) →
        validParts p2 = true →
        cstUtc (convertToCST s2) = some ((naiveEpochMs p2 : Int) - offMin * 60000)) := by
  have hok : convertToCST s = .ok ((naiveEpochMs p : Int) + 6 * 3600000)
      (chicagoPartsOfInstant ((naiveEpochMs p : Int) + 6 * 3600000)) := by
    simp [convertToCST, hno, hparse, hvalid]
  refine ⟨hok, ?_, ?_⟩
  · intro hdst
    rw [hok]
    simp [cstUtc, specChicagoInterpretMs, hdst]
  · intro s2 p2 offMin hz hp hv
    simp [convertToCST, hz, hp, hv, cstUtc]

theorem convertToCST_fixed_cst_offset_witness :
    cstUtc (convertToCST "2025-01-15T09:30:00")
      = some (specChicagoInterpretMs ⟨2025, 1, 15, 9, 30, 0⟩) :=
  (convertToCST_fixed_cst_offset "2025-01-15T09:30:00" ⟨2025, 1, 15, 9, 30, 0⟩
    (by decide) (by decide) (by decide)).2.1 (by decide)

/-- C8: evaluation at the failing input — a scheduled record whose
per-device dispatch job (key record-id dash device-id) sits in the queue
is bulk-deleted, yet the route's cleanup looks up only the plain
record-id key: the record is deleted, zero queue jobs are removed and the
per-device job survives, while the single-cancellation route removes it. -/
theorem bulkDelete_misses_per_device_jobs :
    (bulkDelete wStSched (.byIds ["m1"])).1.messages = [] ∧
    (bulkDelete wStSched (.byIds ["m1"])).2 = (1, 0) ∧
    (bulkDelete wStSched (.byIds ["m1"])).1.queue = [wJob] ∧
    (cancelMessage wStSched "m1" none 5).1.queue = [] := by
  decide

end SepHealth
